import Mathlib

/-!
# Verification of the Azure cost-tracking function's data pipeline

Shallow embedding of `netlify/functions/get-azure-costs.js`: parameter
resolution, validation, cost-record normalization, tag join, sorting,
aggregation and response assembly.

Modelling conventions:
* JavaScript numbers are modelled as exact rationals (`ℚ`); the value `NaN`
  that arises from arithmetic on `undefined` is modelled as `none` in
  `Option ℚ`.  `Math.round x` is `⌊x + 1/2⌋` (halves round toward `+∞`).
* JavaScript row cells are modelled by `JSVal` (string, number, boolean,
  `null`, `undefined`).  Decimal rendering of non-integer numbers and
  numeric coercion of strings are not exercised by the upstream data shape
  and are left as documented placeholders.
* JavaScript objects used as dictionaries (`columnMap`, `serviceCosts`,
  `dailyCosts`, `resourceTags`) are modelled as association lists in key
  insertion order, which is the enumeration order of `Object.entries` for
  the non-index string keys used here.
* `String.prototype.localeCompare` on the date-string shapes produced by
  the pipeline agrees with code-unit lexicographic comparison, which is how
  `strCmp` models it.
* `Array.prototype.sort` is a comparison sort; per the ECMAScript spec a
  comparator result of `NaN` is treated as `0`.  It is modelled by an
  insertion sort over the embedded comparator (no claim here depends on
  stability).
-/

/-- A JavaScript value as it can appear in a parsed JSON body, a query-string
map, or a cell of the columnar cost response. -/
inductive JSVal where
  | str : String → JSVal
  | num : ℚ → JSVal
  | bool : Bool → JSVal
  | nul : JSVal
  | undefined : JSVal
deriving DecidableEq

/-- JavaScript truthiness of a `JSVal` (`""`, `0`, `false`, `null`,
`undefined` are falsy). -/
def jsTruthy : JSVal → Bool
  | .str s => !(s == "")
  | .num q => !(q == 0)
  | .bool b => b
  | .nul => false
  | .undefined => false

/-- JavaScript `String(...)` conversion for an integer number; the upstream
data shape only ever stringifies integral numbers (`UsageDate` cells), so a
non-integer is rendered as a `num/den` placeholder never produced upstream. -/
def ratToJSString (q : ℚ) : String :=
  if q.den = 1 then toString q.num else toString q.num ++ "/" ++ toString q.den

/-- JavaScript `String(...)` conversion of a `JSVal`. -/
def jsValToString : JSVal → String
  | .str s => s
  | .num q => ratToJSString q
  | .bool b => if b then "true" else "false"
  | .nul => "null"
  | .undefined => "undefined"

/-- Numeric coercion applied by JavaScript arithmetic (`cell * 100`):
`none` models `NaN`.  Upstream `PreTaxCost` cells are numbers; coercion of
numeric strings is not exercised and a string coerces to `NaN` here. -/
def jsToNum : JSVal → Option ℚ
  | .num q => some q
  | .bool b => some (if b then 1 else 0)
  | .nul => some 0
  | .str _ => none
  | .undefined => none

/-- Lookup in a JavaScript object modelled as an association list
(first match; `objSet` keeps keys unique). -/
def objGet? {α : Type} : List (String × α) → String → Option α
  | [], _ => none
  | (k', w) :: t, k => if k' = k then some w else objGet? t k

/-- Property assignment on a JavaScript object: overwrite the value of an
existing key in place, else append the new key (insertion order). -/
def objSet {α : Type} : List (String × α) → String → α → List (String × α)
  | [], k, v => [(k, v)]
  | (k', w) :: t, k, v => if k' = k then (k', v) :: t else (k', w) :: objSet t k v

/-- `Array.prototype.join(sep)` on a list of strings. -/
def joinSep (sep : String) : List String → String
  | [] => ""
  | [x] => x
  | x :: y :: xs => x ++ sep ++ joinSep sep (y :: xs)

/-- `String.prototype.split(c)` for a one-character separator, on the
character list of the string: always returns at least one (possibly empty)
segment. -/
def splitOnCharList (c : Char) : List Char → List (List Char)
  | [] => [[]]
  | x :: xs =>
    if x = c then [] :: splitOnCharList c xs
    else
      match splitOnCharList c xs with
      | [] => [[x]]
      | y :: ys => (x :: y) :: ys

/-- `resourceId.split('/')` followed by taking the last segment when the
segment list is non-empty, as in the source (`parts.length > 0` guard);
the fallback keeps the initial `'N/A'`. -/
def lastSegment (s : String) : String :=
  match (splitOnCharList '/' s.data).getLast? with
  | some cs => String.mk cs
  | none => "N/A"

/-- `String.prototype.substring(a, b)` for constant `a < b` as used in the
source: clamps to the string length, never throws. -/
def jsSubstring (s : String) (a b : Nat) : String :=
  String.mk ((s.data.drop a).take (b - a))

/-- The date decoding of `processCostData`:
`dateStr.substring(0,4) / (4,6) / (6,8)` reassembled as `DD-MM-YYYY`.
`substring` never throws, so the surrounding `try`/`catch` of the source is
unreachable. -/
def decodeDate (dateStr : String) : String :=
  jsSubstring dateStr 6 8 ++ "-" ++ jsSubstring dateStr 4 6 ++ "-" ++
    jsSubstring dateStr 0 4

/-- JavaScript `+` on numbers, with `none` modelling `NaN` (NaN is
absorbing). -/
def jsNumAdd (x y : Option ℚ) : Option ℚ :=
  match x, y with
  | some a, some b => some (a + b)
  | _, _ => none

/-- The `Math.round(v * 100) / 100` idiom used for every rounded value in the
source; `Math.round` takes halves toward `+∞`, and `Math.round NaN = NaN`. -/
def jsNumRound2 (x : Option ℚ) : Option ℚ :=
  x.map (fun q => ((⌊q * 100 + (1 : ℚ) / 2⌋ : ℤ) : ℚ) / 100)

/-- The `(m[k] || 0)` read of an accumulator object: a missing entry and the
falsy values `0` and `NaN` all yield `0`. -/
def orZero (x : Option (Option ℚ)) : Option ℚ :=
  match x with
  | some (some q) => if q = 0 then some 0 else some q
  | _ => some 0

/-- Code-unit lexicographic strict comparison of character lists (computable
form of `List.lt` on `Char`). -/
def charListLt : List Char → List Char → Bool
  | _, [] => false
  | [], _ :: _ => true
  | a :: as, b :: bs =>
    if a < b then true else if b < a then false else charListLt as bs

/-- Sign of `String.prototype.localeCompare`, modelled as code-unit
lexicographic comparison (which the default collation matches on the
digit/dash/letter strings produced by this pipeline). -/
def strCmp (a b : String) : Int :=
  if charListLt a.data b.data then -1
  else if charListLt b.data a.data then 1
  else 0

/-- Sign of the numeric comparator value `p - q`; `none` (`NaN`) comparator
results are treated as `0` per the ECMAScript sort specification. -/
def numCmp (x y : Option ℚ) : Int :=
  match x, y with
  | some p, some q => if q < p then 1 else if p < q then -1 else 0
  | _, _ => 0

/-- The resolved parameter set built by `getRequestParameters`. -/
structure Params where
  start_date : JSVal
  end_date : JSVal
  start_time : JSVal
  end_time : JSVal
  subscription_id : JSVal
  include_tags : Bool
  granularity : JSVal
deriving DecidableEq

/-- JavaScript `a || b`. -/
def jsOr (a b : JSVal) : JSVal := if jsTruthy a then a else b

/-- `getRequestParameters`: merge the parsed JSON body (malformed or absent
bodies arrive as the empty object), the query-string map, and the
environment default subscription id.  Every `||`-resolved field falls
through on falsy body values; `include_tags` is resolved through
`hasOwnProperty` on the body. -/
def getRequestParameters (body : List (String × JSVal))
    (queryParams : List (String × String)) (envSubscriptionId : JSVal) :
    Params :=
  let bget : String → JSVal := fun k => (objGet? body k).getD .undefined
  let qget : String → JSVal := fun k =>
    match objGet? queryParams k with
    | some s => .str s
    | none => .undefined
  { start_date := jsOr (bget "start_date") (qget "start_date")
    end_date := jsOr (bget "end_date") (qget "end_date")
    start_time := jsOr (jsOr (bget "start_time") (qget "start_time"))
      (.str "00:00:00")
    end_time := jsOr (jsOr (bget "end_time") (qget "end_time"))
      (.str "23:59:59")
    subscription_id := jsOr (jsOr (bget "subscription_id")
      (qget "subscription_id")) envSubscriptionId
    include_tags :=
      if (objGet? body "include_tags").isSome then
        (bget "include_tags" == .bool true) ||
          (bget "include_tags" == .str "true")
      else if jsTruthy (qget "include_tags") then
        qget "include_tags" == .str "true"
      else true
    granularity := jsOr (jsOr (bget "granularity") (qget "granularity"))
      (.str "Daily") }

/-- One `[0-5][0-9]` group of the time regex. -/
def minuteSecond (a b : Char) : Bool :=
  ('0' ≤ a && a ≤ '5') && ('0' ≤ b && b ≤ '9')

/-- The time regex `^([0-1]?[0-9]|2[0-3]):[0-5][0-9]:[0-5][0-9]$` compiled to
a decision procedure on the character list. -/
def timeOk (s : String) : Bool :=
  match s.data with
  | [h, ':', m1, m2, ':', s1, s2] =>
    ('0' ≤ h && h ≤ '9') && minuteSecond m1 m2 && minuteSecond s1 s2
  | [h1, h2, ':', m1, m2, ':', s1, s2] =>
    ((('0' ≤ h1 && h1 ≤ '1') && ('0' ≤ h2 && h2 ≤ '9')) ||
      (h1 = '2' && ('0' ≤ h2 && h2 ≤ '3'))) &&
      minuteSecond m1 m2 && minuteSecond s1 s2
  | _ => false

/-- `validateParameters`, parameterized by the semantics `parse` of
`new Date(v).getTime()` in milliseconds (`none` models `NaN`).  The day
difference uses truncating division, reached only when `s ≤ e` where it
agrees with `Math.floor`. -/
def validateParameters (parse : JSVal → Option Int) (p : Params) :
    Option String :=
  if !jsTruthy p.start_date then
    some "Missing required parameter: start_date (format: YYYY-MM-DD)"
  else if !jsTruthy p.end_date then
    some "Missing required parameter: end_date (format: YYYY-MM-DD)"
  else if !jsTruthy p.subscription_id then
    some "Missing required parameter: subscription_id"
  else
    match parse p.start_date, parse p.end_date with
    | some s, some e =>
      if e < s then
        some "end_date must be greater than or equal to start_date"
      else if 365 < (e - s) / 86400000 then
        some "Date range cannot exceed 365 days"
      else if !timeOk (jsValToString p.start_time) ||
          !timeOk (jsValToString p.end_time) then
        some "Invalid time format. Use HH:MM:SS (e.g., 14:30:00)"
      else if !((p.granularity == JSVal.str "Daily") ||
          (p.granularity == JSVal.str "Monthly")) then
        some "granularity must be \x27Daily\x27 or \x27Monthly\x27"
      else none
    | _, _ => some "Invalid date format. Use YYYY-MM-DD"

/-- One flat cost record, as assembled per row by `processCostData`. -/
structure CostItem where
  Date : String
  Cost_INR : Option ℚ
  ServiceName : JSVal
  ResourceName : String
  ResourceId : JSVal
  ResourceGroupName : JSVal
  ResourceType : JSVal
  Tags : String
deriving DecidableEq

/-- The `columns.forEach((col, idx) => columnMap[col.name] = idx)` loop with
its running index. -/
def buildColumnMapFrom (i : Nat) :
    List String → List (String × Nat) → List (String × Nat)
  | [], m => m
  | c :: cs, m => buildColumnMapFrom (i + 1) cs (objSet m c i)

/-- The name-to-index column map of `processCostData`. -/
def buildColumnMap (cols : List String) : List (String × Nat) :=
  buildColumnMapFrom 0 cols []

/-- A `columnMap.hasOwnProperty(name) ? row[columnMap[name]] : fallback`
field read; an index beyond the row length reads `undefined`. -/
def getCol (cmap : List (String × Nat)) (row : List JSVal) (name : String)
    (fallback : JSVal) : JSVal :=
  match objGet? cmap name with
  | none => fallback
  | some i => row.getD i .undefined

/-- The raw `row[columnMap.PreTaxCost]` cost coerced to a number: an absent
column indexes with `undefined` and yields `NaN` (`none`). -/
def extractRawCost (cmap : List (String × Nat)) (row : List JSVal) :
    Option ℚ :=
  match objGet? cmap "PreTaxCost" with
  | none => none
  | some i => jsToNum (row.getD i .undefined)

/-- The per-row cost `Math.round(row[columnMap.PreTaxCost] * 100) / 100`. -/
def rowCost (cmap : List (String × Nat)) (row : List JSVal) : Option ℚ :=
  jsNumRound2 (extractRawCost cmap row)

/-- The date branch of the loop body: `'Unknown'` when the `UsageDate`
column is absent, else the decoded stringified cell. -/
def extractDate (cmap : List (String × Nat)) (row : List JSVal) : String :=
  match objGet? cmap "UsageDate" with
  | none => "Unknown"
  | some i => decodeDate (jsValToString (row.getD i .undefined))

/-- The resource-id read of the loop body: the literal `''` when the
`ResourceId` column is absent. -/
def extractResourceId (cmap : List (String × Nat)) (row : List JSVal) :
    JSVal :=
  match objGet? cmap "ResourceId" with
  | none => JSVal.str ""
  | some i => row.getD i .undefined

/-- The tag join of the loop body: `'No tags'` unless the resource id is
truthy and tags were requested; then `resourceTags[resourceId] || {}`,
joined as `K=V` pairs with `'; '` when non-empty. -/
def tagsStrOf (resourceTags : List (String × List (String × String)))
    ( include_tags : Bool) (resourceId : JSVal) : String :=
  if jsTruthy resourceId && include_tags then
    let tagsDict := (objGet? resourceTags (jsValToString resourceId)).getD []
    if 0 < tagsDict.length then
      joinSep "; " (tagsDict.map (fun kv => kv.1 ++ "=" ++ kv.2))
    else "No tags"
  else "No tags"

/-- The loop body of `processCostData`: build one `CostItem` from a row. -/
def mkCostItem (cmap : List (String × Nat))
    (resourceTags : List (String × List (String × String)))
    ( include_tags : Bool) (row : List JSVal) : CostItem :=
  let resourceId := extractResourceId cmap row
  let resourceName :=
    if jsTruthy resourceId then lastSegment (jsValToString resourceId)
    else "N/A"
  { Date := extractDate cmap row
    Cost_INR := rowCost cmap row
    ServiceName := getCol cmap row "ServiceName" (.str "N/A")
    ResourceName := resourceName
    ResourceId := resourceId
    ResourceGroupName := getCol cmap row "ResourceGroupName" (.str "N/A")
    ResourceType := getCol cmap row "ResourceType" (.str "N/A")
    Tags := tagsStrOf resourceTags include_tags resourceId }

/-- The `detailedCosts.sort` comparator: `localeCompare` on unequal dates,
else the sign of `b.Cost_INR - a.Cost_INR` (`NaN` treated as `0`). -/
def itemCmp (a b : CostItem) : Int :=
  if a.Date ≠ b.Date then strCmp a.Date b.Date
  else numCmp b.Cost_INR a.Cost_INR

/-- "`a` may come before `b`" for the record comparator. -/
def itemLe (a b : CostItem) : Bool := itemCmp a b ≤ 0

/-- Insertion step of the comparison sort used to model
`Array.prototype.sort`. -/
def insertSorted {α : Type} (le : α → α → Bool) (a : α) :
    List α → List α
  | [] => [a]
  | b :: t => if le a b then a :: b :: t else b :: insertSorted le a t

/-- Comparison sort modelling `Array.prototype.sort(comparator)`. -/
def sortByLe {α : Type} (le : α → α → Bool) (l : List α) : List α :=
  l.foldr (insertSorted le) []

/-- The summary statistics object built by `createSummary`. -/
structure Summary where
  total_cost : Option ℚ
  currency : String
  average_daily_cost : Option ℚ
  unique_services : Nat
  unique_resources : Nat
  unique_resource_groups : Nat
  top_services : List (String × Option ℚ)
  top_resources : List (String × Option ℚ)
  daily_breakdown : List (String × Option ℚ)
deriving DecidableEq

/-- The `serviceCosts` accumulation loop: skip `'N/A'` service names, add the
record cost into the bucket keyed by the stringified service name. -/
def serviceCostsOf (detailedCosts : List CostItem) :
    List (String × Option ℚ) :=
  detailedCosts.foldl
    (fun m i =>
      if i.ServiceName = JSVal.str "N/A" then m
      else
        objSet m (jsValToString i.ServiceName)
          (jsNumAdd (orZero (objGet? m (jsValToString i.ServiceName)))
            i.Cost_INR))
    []

/-- The `resourceCosts` accumulation loop keyed by
`"{ResourceName} ({ServiceName})"`. -/
def resourceCostsOf (detailedCosts : List CostItem) :
    List (String × Option ℚ) :=
  detailedCosts.foldl
    (fun m i =>
      if i.ResourceName = "N/A" then m
      else
        objSet m (i.ResourceName ++ " (" ++ jsValToString i.ServiceName ++ ")")
          (jsNumAdd
            (orZero (objGet? m
              (i.ResourceName ++ " (" ++ jsValToString i.ServiceName ++ ")")))
            i.Cost_INR))
    []

/-- The `dailyCosts` accumulation loop: every record is added into the bucket
of its date string (including `"Unknown"`). -/
def dailyCostsOf (detailedCosts : List CostItem) :
    List (String × Option ℚ) :=
  detailedCosts.foldl
    (fun m i => objSet m i.Date (jsNumAdd (orZero (objGet? m i.Date)) i.Cost_INR))
    []

/-- Comparator order for the top-N entry sorts `(a, b) => b[1] - a[1]`. -/
def entryCostLe (a b : String × Option ℚ) : Bool :=
  numCmp b.2 a.2 ≤ 0

/-- Comparator order for the daily-breakdown sort
`(a, b) => a[0].localeCompare(b[0])`. -/
def entryKeyLe (a b : String × Option ℚ) : Bool :=
  strCmp a.1 b.1 ≤ 0

/-- Round the cost component of an entry, as the final `.map` of each
aggregate does. -/
def roundEntry (e : String × Option ℚ) : String × Option ℚ :=
  (e.1, jsNumRound2 e.2)

/-- `createSummary`, parameterized by the same `new Date` semantics as the
validator.  The zero-record case short-circuits to an all-zero/empty
default before any date arithmetic. -/
def createSummary (parse : JSVal → Option Int)
    (detailedCosts : List CostItem) (totalCost : Option ℚ) (p : Params) :
    Summary :=
  if detailedCosts.length = 0 then
    { total_cost := some 0
      currency := "INR"
      average_daily_cost := some 0
      unique_services := 0
      unique_resources := 0
      unique_resource_groups := 0
      top_services := []
      top_resources := []
      daily_breakdown := [] }
  else
    let days : Option Int :=
      match parse p.start_date, parse p.end_date with
      | some s, some e => some (Int.fdiv (e - s) 86400000 + 1)
      | _, _ => none
    { total_cost := jsNumRound2 totalCost
      currency := "INR"
      average_daily_cost :=
        match days with
        | some d =>
          if 0 < d then jsNumRound2 (totalCost.map (fun t => t / (d : ℚ)))
          else some 0
        | none => some 0
      unique_services :=
        ((detailedCosts.filter (fun i => i.ServiceName ≠ JSVal.str "N/A")).map
          (fun i => i.ServiceName)).dedup.length
      unique_resources :=
        ((detailedCosts.filter (fun i => jsTruthy i.ResourceId)).map
          (fun i => i.ResourceId)).dedup.length
      unique_resource_groups :=
        ((detailedCosts.filter
          (fun i => i.ResourceGroupName ≠ JSVal.str "N/A")).map
          (fun i => i.ResourceGroupName)).dedup.length
      top_services :=
        ((sortByLe entryCostLe (serviceCostsOf detailedCosts)).take 5).map
          roundEntry
      top_resources :=
        ((sortByLe entryCostLe (resourceCostsOf detailedCosts)).take 10).map
          roundEntry
      daily_breakdown :=
        (sortByLe entryKeyLe (dailyCostsOf detailedCosts)).map roundEntry }

/-- The metadata object literal of `processCostData`, in key insertion
order. -/
def metadataOf (p : Params) (totalRecords : Nat) (generatedAt : String) :
    List (String × JSVal) :=
  [("start_date", p.start_date), ("end_date", p.end_date),
   ("start_time", p.start_time), ("end_time", p.end_time),
   ("subscription_id", p.subscription_id), ("granularity", p.granularity),
   ("total_records", .num (totalRecords : ℚ)),
   ("generated_at", .str generatedAt)]

/-- The response envelope of `processCostData`. -/
structure ProcResult where
  summary : Summary
  detailed_costs : List CostItem
  metadata : List (String × JSVal)
deriving DecidableEq

/-- `processCostData`: build the column map, normalize every row (joining
tags and accumulating the running total of already-rounded per-row costs),
sort, aggregate and assemble.  `generatedAt` stands for the
`new Date().toISOString()` timestamp. -/
def processCostData (parse : JSVal → Option Int) (cols : List String)
    (rows : List (List JSVal))
    (resourceTags : List (String × List (String × String))) (p : Params)
    (generatedAt : String) : ProcResult :=
  let cmap := buildColumnMap cols
  let items := rows.map (mkCostItem cmap resourceTags p.include_tags)
  let totalCost := items.foldl (fun acc i => jsNumAdd acc i.Cost_INR) (some 0)
  let sorted := sortByLe itemLe items
  { summary := createSummary parse sorted totalCost p
    detailed_costs := sorted
    metadata := metadataOf p sorted.length generatedAt }

/-- Modelled from the spec wording of the rounding rule
("round-half-away-from-zero at the cent"): reference definition used only to
compare the specified rounding with the code's `Math.round`-based one. -/
def specRoundHalfAwayFromZero (q : ℚ) : ℚ :=
  if 0 ≤ q then ((⌊q * 100 + (1 : ℚ) / 2⌋ : ℤ) : ℚ) / 100
  else -(((⌊-q * 100 + (1 : ℚ) / 2⌋ : ℤ) : ℚ) / 100)

/-- The order claimed for `detailed_costs`: date string strictly ascending
lexicographically, and cost descending between records sharing a date. -/
def sortedRel (a b : CostItem) : Prop :=
  a.Date < b.Date ∨
    (a.Date = b.Date ∧
      ∃ p q : ℚ, a.Cost_INR = some p ∧ b.Cost_INR = some q ∧ q ≤ p)

/-! ## Helper lemmas: the comparison sort -/

theorem mem_insertSorted {α : Type} (le : α → α → Bool) (a x : α) :
    ∀ l : List α, x ∈ insertSorted le a l ↔ x = a ∨ x ∈ l := by
  intro l
  induction l with
  | nil => simp [insertSorted]
  | cons b t ih =>
    by_cases h : le a b = true
    · simp [insertSorted, h]
    · simp only [insertSorted, h, Bool.false_eq_true, if_false, List.mem_cons,
        ih]
      tauto

theorem perm_insertSorted {α : Type} (le : α → α → Bool) (a : α) :
    ∀ l : List α, List.Perm (insertSorted le a l) (a :: l) := by
  intro l
  induction l with
  | nil => simp [insertSorted]
  | cons b t ih =>
    by_cases h : le a b = true
    · simp [insertSorted, h]
    · simp only [insertSorted, h, Bool.false_eq_true, if_false]
      exact ((ih.cons b).trans (List.Perm.swap a b t))

theorem perm_sortByLe {α : Type} (le : α → α → Bool) :
    ∀ l : List α, List.Perm (sortByLe le l) l := by
  intro l
  induction l with
  | nil => rfl
  | cons a t ih =>
    have h1 : sortByLe le (a :: t) = insertSorted le a (sortByLe le t) := rfl
    rw [h1]
    exact (perm_insertSorted le a (sortByLe le t)).trans (ih.cons a)

theorem pairwise_insertSorted {α : Type} (le : α → α → Bool) (P : α → Prop)
    (htot : ∀ a b, P a → P b → le a b = true ∨ le b a = true)
    (htrans : ∀ a b c, P a → P b → P c →
      le a b = true → le b c = true → le a c = true)
    (a : α) (ha : P a) :
    ∀ l : List α, (∀ x ∈ l, P x) →
      l.Pairwise (fun x y => le x y = true) →
      (insertSorted le a l).Pairwise (fun x y => le x y = true) := by
  intro l
  induction l with
  | nil => intro _ _; simp [insertSorted]
  | cons b t ih =>
    intro hP hpw
    have hPb : P b := hP b (by simp)
    have hPt : ∀ x ∈ t, P x := fun x hx => hP x (by simp [hx])
    rcases List.pairwise_cons.mp hpw with ⟨hbt, hpt⟩
    by_cases h : le a b = true
    · simp only [insertSorted, h, if_true]
      refine List.pairwise_cons.mpr ⟨?_, hpw⟩
      intro x hx
      rcases List.mem_cons.mp hx with rfl | hxt
      · exact h
      · exact htrans a b x ha hPb (hPt x hxt) h (hbt x hxt)
    · simp only [insertSorted, h, Bool.false_eq_true, if_false]
      refine List.pairwise_cons.mpr ⟨?_, ih hPt hpt⟩
      intro x hx
      rcases (mem_insertSorted le a x t).mp hx with hxa | hxt
      · rcases htot a b ha hPb with hab | hba
        · exact absurd hab h
        · rw [hxa]; exact hba
      · exact hbt x hxt

theorem pairwise_sortByLe {α : Type} (le : α → α → Bool) (P : α → Prop)
    (htot : ∀ a b, P a → P b → le a b = true ∨ le b a = true)
    (htrans : ∀ a b c, P a → P b → P c →
      le a b = true → le b c = true → le a c = true) :
    ∀ l : List α, (∀ x ∈ l, P x) →
      (sortByLe le l).Pairwise (fun x y => le x y = true) := by
  intro l
  induction l with
  | nil => intro _; simp [sortByLe]
  | cons a t ih =>
    intro hP
    have h1 : sortByLe le (a :: t) = insertSorted le a (sortByLe le t) := rfl
    rw [h1]
    have hPt : ∀ x ∈ t, P x := fun x hx => hP x (by simp [hx])
    have hPs : ∀ x ∈ sortByLe le t, P x := fun x hx =>
      hPt x ((perm_sortByLe le t).mem_iff.mp hx)
    exact pairwise_insertSorted le P htot htrans a (hP a (by simp)) _ hPs
      (ih hPt)

/-! ## Helper lemmas: exact sums of cent-valued `Option ℚ` quantities -/

/-- `x` is a numeric value that is an integer multiple of one cent. -/
def isCent (x : Option ℚ) : Prop := ∃ n : ℤ, x = some ((n : ℚ) / 100)

theorem isCent_isSome {x : Option ℚ} (h : isCent x) : x.isSome = true := by
  rcases h with ⟨n, rfl⟩; rfl

theorem isCent_jsNumRound2 {x : Option ℚ} (h : x.isSome = true) :
    isCent (jsNumRound2 x) := by
  rcases Option.isSome_iff_exists.mp h with ⟨q, rfl⟩
  exact ⟨⌊q * 100 + (1 : ℚ) / 2⌋, rfl⟩

theorem jsNumRound2_isSome {x : Option ℚ} :
    (jsNumRound2 x).isSome = x.isSome := by
  cases x <;> rfl

/-- Rounding to cents is the identity on an exact multiple of a cent. -/
theorem jsNumRound2_cent {x : Option ℚ} (h : isCent x) : jsNumRound2 x = x := by
  rcases h with ⟨n, rfl⟩
  have h100 : ((n : ℚ) / 100) * 100 = (n : ℚ) := by field_simp
  have hfl : ⌊((n : ℚ) / 100) * 100 + (1 : ℚ) / 2⌋ = n := by
    rw [h100, Int.floor_int_add]
    norm_num
  simp only [jsNumRound2, Option.map, hfl]

theorem isCent_add {x y : Option ℚ} (hx : isCent x) (hy : isCent y) :
    isCent (jsNumAdd x y) := by
  rcases hx with ⟨n, rfl⟩
  rcases hy with ⟨m, rfl⟩
  refine ⟨n + m, ?_⟩
  simp only [jsNumAdd, Int.cast_add]
  rw [div_add_div_same]

/-- Folding `jsNumAdd` over a list of numeric values computes the exact
rational sum. -/
theorem foldl_jsNumAdd (xs : List (Option ℚ)) :
    ∀ a : ℚ, (∀ x ∈ xs, x.isSome = true) →
      xs.foldl jsNumAdd (some a) =
        some (a + (xs.map (fun x => x.getD 0)).sum) := by
  induction xs with
  | nil => intro a _; simp
  | cons x t ih =>
    intro a hx
    rcases Option.isSome_iff_exists.mp (hx x (by simp)) with ⟨q, rfl⟩
    have ht : ∀ y ∈ t, y.isSome = true := fun y hy => hx y (by simp [hy])
    simp only [List.foldl_cons, jsNumAdd, List.map_cons, List.sum_cons]
    rw [ih (a + q) ht]
    simp only [Option.getD_some, Option.some.injEq]
    ring

/-- Sum of the numeric values of a cent-valued list is itself a multiple of
a cent. -/
theorem isCent_sum (xs : List (Option ℚ)) (h : ∀ x ∈ xs, isCent x) :
    ∃ N : ℤ, (xs.map (fun x => x.getD 0)).sum = ((N : ℚ) / 100) := by
  induction xs with
  | nil => exact ⟨0, by simp⟩
  | cons x t ih =>
    rcases h x (by simp) with ⟨n, rfl⟩
    rcases ih (fun y hy => h y (by simp [hy])) with ⟨N, hN⟩
    refine ⟨n + N, ?_⟩
    simp only [List.map_cons, List.sum_cons, Option.getD_some, hN,
      Int.cast_add]
    rw [div_add_div_same]

/-! ## Helper lemmas: the accumulator objects of `createSummary` -/

/-- Exact rational sum of the numeric values of an accumulator object. -/
def valsSum (m : List (String × Option ℚ)) : ℚ :=
  (m.map (fun e => e.2.getD 0)).sum

theorem orZero_of_isSome {w : Option ℚ} (h : w.isSome = true) :
    orZero (some w) = w := by
  rcases Option.isSome_iff_exists.mp h with ⟨q, rfl⟩
  by_cases hq : q = 0
  · subst hq; rfl
  · simp [orZero, hq]

theorem valsSum_objSet_add :
    ∀ (m : List (String × Option ℚ)) (k : String) (c : Option ℚ),
      (∀ e ∈ m, isCent e.2) → isCent c →
      valsSum (objSet m k (jsNumAdd (orZero (objGet? m k)) c)) =
          valsSum m + c.getD 0 ∧
        (∀ e ∈ objSet m k (jsNumAdd (orZero (objGet? m k)) c), isCent e.2) := by
  intro m
  induction m with
  | nil =>
    intro k c _ hc
    rcases hc with ⟨n, rfl⟩
    refine ⟨?_, ?_⟩
    · simp [objGet?, objSet, orZero, jsNumAdd, valsSum]
    · intro e he
      simp only [objGet?, objSet, orZero, jsNumAdd, List.mem_singleton] at he
      subst he
      exact ⟨n, by norm_num⟩
  | cons hd t ih =>
    intro k c hm hc
    rcases hc with ⟨n, hn⟩
    have hhd : isCent hd.2 := hm hd (by simp)
    have ht : ∀ e ∈ t, isCent e.2 := fun e he => hm e (by simp [he])
    by_cases hk : hd.1 = k
    · rcases hhd with ⟨w, hw⟩
      have hget : objGet? (hd :: t) k = some hd.2 := by
        rcases hd with ⟨k₁, v⟩
        simp only [objGet?]
        rw [if_pos hk]
      have hoz : orZero (some hd.2) = hd.2 := by
        rw [hw]; exact orZero_of_isSome (by rfl)
      have hset : objSet (hd :: t) k (jsNumAdd (orZero (objGet? (hd :: t) k)) c) =
          (hd.1, jsNumAdd hd.2 c) :: t := by
        rcases hd with ⟨k₁, v⟩
        simp only [objGet?, objSet]
        rw [if_pos hk, if_pos hk]
        simp only [orZero] at hoz ⊢
        rw [hoz]
      rw [hset]
      constructor
      · simp only [valsSum, List.map_cons, List.sum_cons]
        rw [hw, hn]
        simp only [jsNumAdd, Option.getD_some]
        ring
      · intro e he
        rcases List.mem_cons.mp he with rfl | het
        · refine ⟨w + n, ?_⟩
          simp only [jsNumAdd]
          rw [hw, hn]
          simp only [jsNumAdd, Int.cast_add]
          rw [div_add_div_same]
        · exact ht e het
    · have hget : objGet? (hd :: t) k = objGet? t k := by
        rcases hd with ⟨k₁, v⟩
        simp only [objGet?]
        rw [if_neg hk]
      have hset : objSet (hd :: t) k (jsNumAdd (orZero (objGet? (hd :: t) k)) c) =
          hd :: objSet t k (jsNumAdd (orZero (objGet? t k)) c) := by
        rcases hd with ⟨k₁, v⟩
        simp only [objGet?, objSet]
        rw [if_neg hk, if_neg hk]
      rw [hset]
      rcases ih k c ht ⟨n, hn⟩ with ⟨ihsum, ihcent⟩
      constructor
      · simp only [valsSum, List.map_cons, List.sum_cons] at ihsum ⊢
        rw [ihsum]
        ring
      · intro e he
        rcases List.mem_cons.mp he with rfl | het
        · exact hhd
        · exact ihcent e het

theorem dailyCostsOf_foldl :
    ∀ (l : List CostItem) (m : List (String × Option ℚ)),
      (∀ e ∈ m, isCent e.2) → (∀ i ∈ l, isCent i.Cost_INR) →
      valsSum
          (l.foldl
            (fun m i =>
              objSet m i.Date (jsNumAdd (orZero (objGet? m i.Date)) i.Cost_INR))
            m) =
          valsSum m + (l.map (fun i => i.Cost_INR.getD 0)).sum ∧
        ∀ e ∈ l.foldl
            (fun m i =>
              objSet m i.Date (jsNumAdd (orZero (objGet? m i.Date)) i.Cost_INR))
            m, isCent e.2 := by
  intro l
  induction l with
  | nil =>
    intro m hm _
    simp only [List.foldl_nil, List.map_nil, List.sum_nil, add_zero]
    exact ⟨trivial, hm⟩
  | cons i t ih =>
    intro m hm hl
    have hi : isCent i.Cost_INR := hl i (by simp)
    have ht : ∀ j ∈ t, isCent j.Cost_INR := fun j hj => hl j (by simp [hj])
    rcases valsSum_objSet_add m i.Date i.Cost_INR hm hi with ⟨hsum, hcent⟩
    rcases ih _ hcent ht with ⟨ihsum, ihcent⟩
    refine ⟨?_, ihcent⟩
    simp only [List.foldl_cons, List.map_cons, List.sum_cons]
    rw [ihsum, hsum]
    ring

theorem map_roundEntry_cent :
    ∀ m : List (String × Option ℚ), (∀ e ∈ m, isCent e.2) →
      m.map roundEntry = m := by
  intro m
  induction m with
  | nil => intro _; rfl
  | cons e t ih =>
    intro hm
    have he : isCent e.2 := hm e (by simp)
    have ht : ∀ f ∈ t, isCent f.2 := fun f hf => hm f (by simp [hf])
    simp only [List.map_cons, ih ht, List.cons.injEq, and_true]
    rcases e with ⟨k, v⟩
    simp only [roundEntry, jsNumRound2_cent he]

theorem valsSum_sortByLe (le : (String × Option ℚ) → (String × Option ℚ) → Bool)
    (m : List (String × Option ℚ)) : valsSum (sortByLe le m) = valsSum m := by
  exact List.Perm.sum_eq ((perm_sortByLe le m).map (fun e => e.2.getD 0))

theorem cent_sortByLe (le : (String × Option ℚ) → (String × Option ℚ) → Bool)
    (m : List (String × Option ℚ)) (hm : ∀ e ∈ m, isCent e.2) :
    ∀ e ∈ sortByLe le m, isCent e.2 := fun e he =>
  hm e ((perm_sortByLe le m).mem_iff.mp he)

/-! ## Helper lemmas: the record comparator -/

theorem charListLt_iff_lt : ∀ l1 l2 : List Char, charListLt l1 l2 = true ↔ l1 < l2 := by
  intro l1
  induction l1 with
  | nil =>
    intro l2
    cases l2 with
    | nil =>
      constructor
      · intro h; exact absurd h (by decide)
      · intro h; cases h
    | cons b bs =>
      constructor
      · intro _; exact List.Lex.nil
      · intro _; rfl
  | cons a as ih =>
    intro l2
    cases l2 with
    | nil =>
      constructor
      · intro h; simp [charListLt] at h
      · intro h; cases h
    | cons b bs =>
      by_cases hab : a < b
      · simp only [charListLt, if_pos hab]
        constructor
        · intro _; exact List.Lex.rel hab
        · intro _; trivial
      · by_cases hba : b < a
        · simp only [charListLt, if_neg hab, if_pos hba]
          constructor
          · intro h; exact absurd h (by decide)
          · intro h
            cases h with
            | rel h2 => exact absurd h2 hab
            | cons h2 => exact absurd hba (lt_irrefl a)
        · have hEq : a = b := le_antisymm (not_lt.mp hba) (not_lt.mp hab)
          subst hEq
          simp only [charListLt, if_neg hab, if_neg hba]
          constructor
          · intro h; exact List.Lex.cons ((ih bs).mp h)
          · intro h
            cases h with
            | cons h2 => exact (ih bs).mpr h2
            | rel h2 => exact absurd h2 hab

theorem charListLt_iff_strLt (a b : String) :
    charListLt a.data b.data = true ↔ a < b := by
  rw [charListLt_iff_lt]
  exact (String.lt_iff_toList_lt).symm

theorem strCmp_nonpos_iff (a b : String) : strCmp a b ≤ 0 ↔ a ≤ b := by
  unfold strCmp
  rcases lt_trichotomy a b with h | h | h
  · rw [if_pos ((charListLt_iff_strLt a b).mpr h)]
    constructor
    · intro _; exact le_of_lt h
    · intro _; norm_num
  · subst h
    have hfalse : charListLt a.data a.data = false := by
      cases hc : charListLt a.data a.data
      · rfl
      · exact absurd ((charListLt_iff_strLt a a).mp hc) (lt_irrefl a)
    simp [hfalse]
  · have h1 : charListLt a.data b.data = false := by
      cases hc : charListLt a.data b.data
      · rfl
      · exact absurd ((charListLt_iff_strLt a b).mp hc) (lt_asymm h)
    have h2 : charListLt b.data a.data = true :=
      (charListLt_iff_strLt b a).mpr h
    rw [h1, h2]
    simp only [Bool.false_eq_true, if_false, if_true]
    constructor
    · intro habs; norm_num at habs
    · intro hab; exact absurd h (not_lt.mpr hab)

theorem itemLe_true_iff (a b : CostItem) (ha : a.Cost_INR.isSome = true)
    (hb : b.Cost_INR.isSome = true) :
    itemLe a b = true ↔ sortedRel a b := by
  rcases Option.isSome_iff_exists.mp ha with ⟨qa, hqa⟩
  rcases Option.isSome_iff_exists.mp hb with ⟨qb, hqb⟩
  by_cases hD : a.Date = b.Date
  · have h1 : itemCmp a b = if qa < qb then 1 else if qb < qa then -1 else 0 := by
      unfold itemCmp
      rw [if_neg (by simp [hD]), hqa, hqb]
      simp [numCmp]
    unfold itemLe sortedRel
    rw [h1]
    simp only [decide_eq_true_eq]
    constructor
    · intro h
      refine Or.inr ⟨hD, qa, qb, hqa, hqb, ?_⟩
      by_contra hqab
      rw [if_pos (not_le.mp hqab)] at h
      norm_num at h
    · rintro (h | ⟨-, p, q, hp, hq, hle⟩)
      · rw [hD] at h; exact absurd h (lt_irrefl _)
      · rw [hqa] at hp
        rw [hqb] at hq
        have hpa : qa = p := Option.some.inj hp
        have hqb2 : qb = q := Option.some.inj hq
        have hle2 : qb ≤ qa := by rw [hpa, hqb2]; exact hle
        rw [if_neg (not_lt.mpr hle2)]
        by_cases hlt : qb < qa
        · rw [if_pos hlt]; norm_num
        · rw [if_neg hlt]
  · have h1 : itemCmp a b = strCmp a.Date b.Date := by
      unfold itemCmp
      rw [if_pos hD]
    unfold itemLe sortedRel
    rw [h1]
    simp only [decide_eq_true_eq, strCmp_nonpos_iff]
    constructor
    · intro h
      exact Or.inl (lt_of_le_of_ne h hD)
    · rintro (h | ⟨hD2, -⟩)
      · exact le_of_lt h
      · exact absurd hD2 hD

theorem sortedRel_trans {a b c : CostItem} (h1 : sortedRel a b)
    (h2 : sortedRel b c) : sortedRel a c := by
  rcases h1 with h1 | ⟨hD1, p1, q1, hp1, hq1, hle1⟩
  · rcases h2 with h2 | ⟨hD2, _⟩
    · exact Or.inl (lt_trans h1 h2)
    · exact Or.inl (by rw [← hD2]; exact h1)
  · rcases h2 with h2 | ⟨hD2, p2, q2, hp2, hq2, hle2⟩
    · exact Or.inl (by rw [hD1]; exact h2)
    · refine Or.inr ⟨hD1.trans hD2, p1, q2, hp1, hq2, ?_⟩
      have hq1p2 : q1 = p2 := Option.some.inj (hq1 ▸ hp2)
      calc q2 ≤ p2 := hle2
        _ = q1 := hq1p2.symm
        _ ≤ p1 := hle1

theorem sortedRel_total {a b : CostItem} (ha : a.Cost_INR.isSome = true)
    (hb : b.Cost_INR.isSome = true) : sortedRel a b ∨ sortedRel b a := by
  rcases Option.isSome_iff_exists.mp ha with ⟨qa, hqa⟩
  rcases Option.isSome_iff_exists.mp hb with ⟨qb, hqb⟩
  rcases lt_trichotomy a.Date b.Date with h | h | h
  · exact Or.inl (Or.inl h)
  · rcases le_total qb qa with hq | hq
    · exact Or.inl (Or.inr ⟨h, qa, qb, hqa, hqb, hq⟩)
    · exact Or.inr (Or.inr ⟨h.symm, qb, qa, hqb, hqa, hq⟩)
  · exact Or.inr (Or.inl h)

/-! ## Helper lemmas: the column map -/

theorem objGet?_objSet_ne {α : Type} (k name : String) (v : α)
    (h : k ≠ name) :
    ∀ m : List (String × α), objGet? (objSet m k v) name = objGet? m name := by
  intro m
  induction m with
  | nil => simp [objSet, objGet?, h]
  | cons hd t ih =>
    rcases hd with ⟨k₁, w⟩
    by_cases hk : k₁ = k
    · subst hk
      simp only [objSet, if_pos rfl, objGet?]
      rw [if_neg h, if_neg h]
    · simp only [objSet, if_neg hk, objGet?]
      by_cases hn : k₁ = name
      · rw [if_pos hn, if_pos hn]
      · rw [if_neg hn, if_neg hn]
        exact ih

theorem buildColumnMapFrom_none (name : String) :
    ∀ (cols : List String) (i : Nat) (m : List (String × Nat)),
      name ∉ cols → objGet? m name = none →
      objGet? (buildColumnMapFrom i cols m) name = none := by
  intro cols
  induction cols with
  | nil => intro i m _ hm; exact hm
  | cons c cs ih =>
    intro i m hmem hm
    have hc : c ≠ name := fun h => hmem (by simp [h])
    have hcs : name ∉ cs := fun h => hmem (by simp [h])
    simp only [buildColumnMapFrom]
    exact ih (i + 1) _ hcs (by rw [objGet?_objSet_ne c name i hc m]; exact hm)

theorem buildColumnMap_none (cols : List String) (name : String)
    (h : name ∉ cols) : objGet? (buildColumnMap cols) name = none :=
  buildColumnMapFrom_none name cols 0 [] h rfl

/-! ## Concrete sample values used by witnesses and counterexamples -/

/-- A concrete resolved parameter set for concrete evaluations. -/
def sampleParams : Params :=
  { start_date := .str "2024-01-01", end_date := .str "2024-01-02",
    start_time := .str "00:00:00", end_time := .str "23:59:59",
    subscription_id := .str "sub-1", include_tags := true,
    granularity := .str "Daily" }

/-- The all-zero/empty summary returned for zero records. -/
def emptySummary : Summary :=
  { total_cost := some 0, currency := "INR", average_daily_cost := some 0,
    unique_services := 0, unique_resources := 0, unique_resource_groups := 0,
    top_services := [], top_resources := [], daily_breakdown := [] }

/-! ## Claim theorems -/

/-- C9: for the empty record sequence, `createSummary` short-circuits to the
all-zero/empty default — total 0, average 0 regardless of the date span
(`parse`, `totalCost` and the parameter set are arbitrary), zero unique
counts and empty top/breakdown lists — and the full pipeline on zero rows
produces exactly that summary; everything is total, so no exception and no
division occurs. -/
theorem c9_zero_records_summary (parse : JSVal → Option Int)
    (totalCost : Option ℚ) (p : Params) (cols : List String)
    (resourceTags : List (String × List (String × String))) (now : String) :
    createSummary parse [] totalCost p = emptySummary ∧
      (processCostData parse cols [] resourceTags p now).summary =
        emptySummary := by
  constructor
  · rfl
  · rfl

/-- C8 counterexample: the metadata object of a concrete successful response
has no `include_tags` key at all, although the resolved parameter set has
`include_tags = true`; so the metadata does not echo every field of the
resolved ParameterSet. -/
theorem c8_counterexample :
    sampleParams.include_tags = true ∧
      objGet?
        (processCostData (fun _ => none) ["UsageDate"] [[JSVal.str "20240115"]]
          [] sampleParams "ts").metadata "include_tags" = none := by
  constructor
  · rfl
  · rfl

/-- C8 (amended): the metadata object echoes the six fields `start_date`,
`end_date`, `start_time`, `end_time`, `subscription_id`, `granularity` of the
resolved parameter set plus `total_records` equal to the length of
`detailed_costs`, but omits `include_tags`. -/
theorem c8_metadata_echo (parse : JSVal → Option Int) (cols : List String)
    (rows : List (List JSVal))
    (resourceTags : List (String × List (String × String))) (p : Params)
    (now : String) :
    objGet? (processCostData parse cols rows resourceTags p now).metadata
        "start_date" = some p.start_date ∧
      objGet? (processCostData parse cols rows resourceTags p now).metadata
        "end_date" = some p.end_date ∧
      objGet? (processCostData parse cols rows resourceTags p now).metadata
        "start_time" = some p.start_time ∧
      objGet? (processCostData parse cols rows resourceTags p now).metadata
        "end_time" = some p.end_time ∧
      objGet? (processCostData parse cols rows resourceTags p now).metadata
        "subscription_id" = some p.subscription_id ∧
      objGet? (processCostData parse cols rows resourceTags p now).metadata
        "granularity" = some p.granularity ∧
      objGet? (processCostData parse cols rows resourceTags p now).metadata
        "total_records" =
        some (.num
          (((processCostData parse cols rows resourceTags p now).detailed_costs.length : ℚ))) ∧
      objGet? (processCostData parse cols rows resourceTags p now).metadata
        "include_tags" = none := by
  refine ⟨rfl, rfl, rfl, rfl, rfl, rfl, rfl, rfl⟩

/-- C2: on the 8-digit encoding the decoder produces `DD-MM-YYYY`
(`"20240115"` becomes `"15-01-2024"`, also through the full pipeline), and it
never throws; but on a malformed value such as `"abc"` it produces the
fragment join `"--abc"`, not the documented `"Unknown"`: `substring` cannot
throw, so the `catch` branch that would set `'Unknown'` is unreachable. -/
theorem c2_date_decoding_eval :
    decodeDate "20240115" = "15-01-2024" ∧
      decodeDate "abc" = "--abc" ∧
      ((processCostData (fun _ => none) ["UsageDate"]
          [[JSVal.str "20240115"], [JSVal.str "abc"]] [] sampleParams
          "ts").detailed_costs.map (fun i => i.Date)) =
        ["--abc", "15-01-2024"] ∧
      "--abc" ≠ "Unknown" := by
  refine ⟨by decide, by decide, by decide, by decide⟩

/-- C7 counterexample: `start_date` is present in the parsed body with the
(falsy) value `""`, yet the resolved value is taken from the query string —
body precedence fails for falsy body values. -/
theorem c7_counterexample :
    objGet? [("start_date", JSVal.str "")] "start_date" = some (.str "") ∧
      (getRequestParameters [("start_date", .str "")]
          [("start_date", "2024-02-02")] .undefined).start_date =
        .str "2024-02-02" ∧
      JSVal.str "2024-02-02" ≠ JSVal.str "" := by
  refine ⟨by decide, by decide, by decide⟩

/-- C7 (amended): a body value wins over the query string only when it is
truthy (for the six `||`-resolved parameters), and `include_tags` is taken
from the body whenever the key is present there (via `hasOwnProperty`),
whatever its value. -/
theorem c7_body_precedence (body : List (String × JSVal))
    (queryParams : List (String × String)) (envSubscriptionId : JSVal) :
    (jsTruthy ((objGet? body "start_date").getD .undefined) = true →
      (getRequestParameters body queryParams envSubscriptionId).start_date =
        (objGet? body "start_date").getD .undefined) ∧
    (jsTruthy ((objGet? body "end_date").getD .undefined) = true →
      (getRequestParameters body queryParams envSubscriptionId).end_date =
        (objGet? body "end_date").getD .undefined) ∧
    (jsTruthy ((objGet? body "start_time").getD .undefined) = true →
      (getRequestParameters body queryParams envSubscriptionId).start_time =
        (objGet? body "start_time").getD .undefined) ∧
    (jsTruthy ((objGet? body "end_time").getD .undefined) = true →
      (getRequestParameters body queryParams envSubscriptionId).end_time =
        (objGet? body "end_time").getD .undefined) ∧
    (jsTruthy ((objGet? body "subscription_id").getD .undefined) = true →
      (getRequestParameters body queryParams envSubscriptionId).subscription_id =
        (objGet? body "subscription_id").getD .undefined) ∧
    (jsTruthy ((objGet? body "granularity").getD .undefined) = true →
      (getRequestParameters body queryParams envSubscriptionId).granularity =
        (objGet? body "granularity").getD .undefined) ∧
    ((objGet? body "include_tags").isSome = true →
      (getRequestParameters body queryParams envSubscriptionId).include_tags =
        ((((objGet? body "include_tags").getD .undefined) == JSVal.bool true) ||
          (((objGet? body "include_tags").getD .undefined) == JSVal.str "true"))) := by
  refine ⟨?_, ?_, ?_, ?_, ?_, ?_, ?_⟩ <;> intro h <;>
    simp [getRequestParameters, jsOr, h]

/-- C5: the tag join — `include_tags = false` forces `'No tags'` whatever the
tag map holds; an empty-string resource id forces `'No tags'`; a missing or
empty tag-map entry gives `'No tags'`; a non-empty entry is joined in
insertion order as `K=V` pairs separated by `'; '`, e.g.
`{Env: PRD, Team: Eng}` gives `"Env=PRD; Team=Eng"`. -/
theorem c5_tag_join (cmap : List (String × Nat))
    (resourceTags : List (String × List (String × String)))
    (row : List JSVal) :
    ((mkCostItem cmap resourceTags false row).Tags = "No tags") ∧
    (∀ it : Bool, (mkCostItem cmap resourceTags it row).ResourceId =
        JSVal.str "" →
      (mkCostItem cmap resourceTags it row).Tags = "No tags") ∧
    (jsTruthy (extractResourceId cmap row) = true →
      (objGet? resourceTags (jsValToString (extractResourceId cmap row)) =
          none ∨
        objGet? resourceTags (jsValToString (extractResourceId cmap row)) =
          some []) →
      (mkCostItem cmap resourceTags true row).Tags = "No tags") ∧
    (∀ d : List (String × String),
      jsTruthy (extractResourceId cmap row) = true →
      objGet? resourceTags (jsValToString (extractResourceId cmap row)) =
        some d →
      d ≠ [] →
      (mkCostItem cmap resourceTags true row).Tags =
        joinSep "; " (d.map (fun kv => kv.1 ++ "=" ++ kv.2))) ∧
    ((mkCostItem (buildColumnMap ["ResourceId"])
        [("/r1", [("Env", "PRD"), ("Team", "Eng")])] true
        [JSVal.str "/r1"]).Tags = "Env=PRD; Team=Eng") := by
  refine ⟨?_, ?_, ?_, ?_, by decide⟩
  · simp [mkCostItem, tagsStrOf]
  · intro it h
    have hid : extractResourceId cmap row = JSVal.str "" := h
    simp [mkCostItem, tagsStrOf, hid, jsTruthy]
  · intro htr hd
    rcases hd with hd | hd
    · simp [mkCostItem, tagsStrOf, htr, hd]
    · simp [mkCostItem, tagsStrOf, htr, hd]
  · intro d htr hd hne
    have hlen : 0 < d.length := List.length_pos.mpr hne
    simp [mkCostItem, tagsStrOf, htr, hd, hlen]

/-- C3: `validateParameters` reports the message of the first violated rule
in the fixed order — missing `start_date`; missing `end_date`; missing
`subscription_id`; unparseable dates; `end_date` earlier than `start_date`;
span over 365 days; bad `HH:MM:SS` time; bad granularity — and returns
`null` (`none`) when every rule passes.  In particular a falsy `start_date`
yields exactly the start_date message whatever the other fields hold. -/
theorem c3_validator_rule_order (parse : JSVal → Option Int) (p : Params) :
    (jsTruthy p.start_date = false →
      validateParameters parse p =
        some "Missing required parameter: start_date (format: YYYY-MM-DD)") ∧
    (jsTruthy p.start_date = true → jsTruthy p.end_date = false →
      validateParameters parse p =
        some "Missing required parameter: end_date (format: YYYY-MM-DD)") ∧
    (jsTruthy p.start_date = true → jsTruthy p.end_date = true →
      jsTruthy p.subscription_id = false →
      validateParameters parse p =
        some "Missing required parameter: subscription_id") ∧
    (jsTruthy p.start_date = true → jsTruthy p.end_date = true →
      jsTruthy p.subscription_id = true →
      (parse p.start_date = none ∨ parse p.end_date = none) →
      validateParameters parse p = some "Invalid date format. Use YYYY-MM-DD") ∧
    (∀ s e : Int, jsTruthy p.start_date = true → jsTruthy p.end_date = true →
      jsTruthy p.subscription_id = true →
      parse p.start_date = some s → parse p.end_date = some e → e < s →
      validateParameters parse p =
        some "end_date must be greater than or equal to start_date") ∧
    (∀ s e : Int, jsTruthy p.start_date = true → jsTruthy p.end_date = true →
      jsTruthy p.subscription_id = true →
      parse p.start_date = some s → parse p.end_date = some e → s ≤ e →
      365 < (e - s) / 86400000 →
      validateParameters parse p = some "Date range cannot exceed 365 days") ∧
    (∀ s e : Int, jsTruthy p.start_date = true → jsTruthy p.end_date = true →
      jsTruthy p.subscription_id = true →
      parse p.start_date = some s → parse p.end_date = some e → s ≤ e →
      (e - s) / 86400000 ≤ 365 →
      (timeOk (jsValToString p.start_time) = false ∨
        timeOk (jsValToString p.end_time) = false) →
      validateParameters parse p =
        some "Invalid time format. Use HH:MM:SS (e.g., 14:30:00)") ∧
    (∀ s e : Int, jsTruthy p.start_date = true → jsTruthy p.end_date = true →
      jsTruthy p.subscription_id = true →
      parse p.start_date = some s → parse p.end_date = some e → s ≤ e →
      (e - s) / 86400000 ≤ 365 →
      timeOk (jsValToString p.start_time) = true →
      timeOk (jsValToString p.end_time) = true →
      p.granularity ≠ JSVal.str "Daily" → p.granularity ≠ JSVal.str "Monthly" →
      validateParameters parse p =
        some "granularity must be \x27Daily\x27 or \x27Monthly\x27") ∧
    (∀ s e : Int, jsTruthy p.start_date = true → jsTruthy p.end_date = true →
      jsTruthy p.subscription_id = true →
      parse p.start_date = some s → parse p.end_date = some e → s ≤ e →
      (e - s) / 86400000 ≤ 365 →
      timeOk (jsValToString p.start_time) = true →
      timeOk (jsValToString p.end_time) = true →
      (p.granularity = JSVal.str "Daily" ∨ p.granularity = JSVal.str "Monthly") →
      validateParameters parse p = none) := by
  refine ⟨?_, ?_, ?_, ?_, ?_, ?_, ?_, ?_, ?_⟩
  · intro h1
    simp [validateParameters, h1]
  · intro h1 h2
    simp [validateParameters, h1, h2]
  · intro h1 h2 h3
    simp [validateParameters, h1, h2, h3]
  · intro h1 h2 h3 h4
    rcases h4 with h4 | h4
    · cases hpe : parse p.end_date <;>
        simp [validateParameters, h1, h2, h3, h4, hpe]
    · cases hps : parse p.start_date <;>
        simp [validateParameters, h1, h2, h3, h4, hps]
  · intro s e h1 h2 h3 hs he hlt
    simp [validateParameters, h1, h2, h3, hs, he, hlt]
  · intro s e h1 h2 h3 hs he hse hrange
    simp [validateParameters, h1, h2, h3, hs, he, not_lt.mpr hse, hrange]
  · intro s e h1 h2 h3 hs he hse hrange htime
    rcases htime with ht | ht <;>
      simp [validateParameters, h1, h2, h3, hs, he, not_lt.mpr hse,
        not_lt.mpr hrange, ht]
  · intro s e h1 h2 h3 hs he hse hrange ht1 ht2 hg1 hg2
    simp [validateParameters, h1, h2, h3, hs, he, not_lt.mpr hse,
      not_lt.mpr hrange, ht1, ht2, hg1, hg2]
  · intro s e h1 h2 h3 hs he hse hrange ht1 ht2 hg
    rcases hg with hg | hg <;>
      simp [validateParameters, h1, h2, h3, hs, he, not_lt.mpr hse,
        not_lt.mpr hrange, ht1, ht2, hg]

/-- C3 witness: a parameter set with a falsy (empty) `start_date` receives
exactly the start_date message although every other rule is also violated. -/
theorem c3_validator_witness :
    validateParameters (fun _ => none)
        { start_date := .str "", end_date := .str "", start_time := .str "x",
          end_time := .str "x", subscription_id := .str "", include_tags := true,
          granularity := .str "Hourly" } =
      some "Missing required parameter: start_date (format: YYYY-MM-DD)" :=
  (c3_validator_rule_order (fun _ => none)
    { start_date := .str "", end_date := .str "", start_time := .str "x",
      end_time := .str "x", subscription_id := .str "", include_tags := true,
      granularity := .str "Hourly" }).1 (by decide)

/-- C6 counterexample: with the `PreTaxCost` column absent, the produced
record's cost is `NaN` (modelled `none`) — `row[columnMap.PreTaxCost]` reads
`row[undefined]`, i.e. `undefined`, and `undefined * 100` is `NaN` — not the
`'N/A'` fallback the claim asserts for every named column; the other
fallbacks do appear and nothing throws. -/
theorem c6_counterexample :
    (processCostData (fun _ => none) ["UsageDate"] [[JSVal.str "20240115"]] []
        sampleParams "ts").detailed_costs =
      [{ Date := "15-01-2024", Cost_INR := none, ServiceName := .str "N/A",
         ResourceName := "N/A", ResourceId := .str "",
         ResourceGroupName := .str "N/A", ResourceType := .str "N/A",
         Tags := "No tags" }] := by
  decide

/-- C6 (amended): in every produced record, an absent `UsageDate` column
yields date `"Unknown"`, an absent `ResourceId` column yields the empty
string, absent `ServiceName` / `ResourceGroupName` / `ResourceType` columns
yield `'N/A'`, and no exception is raised — but an absent `PreTaxCost`
column yields a `NaN` cost (`none`), not `'N/A'`. -/
theorem c6_absent_column_fallbacks (parse : JSVal → Option Int)
    (cols : List String) (rows : List (List JSVal))
    (resourceTags : List (String × List (String × String))) (p : Params)
    (now : String) (item : CostItem)
    (hmem : item ∈ (processCostData parse cols rows resourceTags p
      now).detailed_costs) :
    ("UsageDate" ∉ cols → item.Date = "Unknown") ∧
    ("ResourceId" ∉ cols → item.ResourceId = JSVal.str "") ∧
    ("ServiceName" ∉ cols → item.ServiceName = JSVal.str "N/A") ∧
    ("ResourceGroupName" ∉ cols → item.ResourceGroupName = JSVal.str "N/A") ∧
    ("ResourceType" ∉ cols → item.ResourceType = JSVal.str "N/A") ∧
    ("PreTaxCost" ∉ cols → item.Cost_INR = none) := by
  have hmem2 : item ∈ rows.map
      (mkCostItem (buildColumnMap cols) resourceTags p.include_tags) :=
    (perm_sortByLe itemLe _).mem_iff.mp hmem
  rcases List.mem_map.mp hmem2 with ⟨row, _, rfl⟩
  refine ⟨?_, ?_, ?_, ?_, ?_, ?_⟩ <;> intro h <;>
    have hn := buildColumnMap_none cols _ h
  · simp [mkCostItem, extractDate, hn]
  · simp [mkCostItem, extractResourceId, hn]
  · simp [mkCostItem, getCol, hn]
  · simp [mkCostItem, getCol, hn]
  · simp [mkCostItem, getCol, hn]
  · simp [mkCostItem, rowCost, extractRawCost, jsNumRound2, hn]

/-- C6 witness: a concrete response without a `ServiceName` column produces
the `'N/A'` service-name fallback in its (only) record. -/
theorem c6_fallback_witness :
    ({ Date := "15-01-2024", Cost_INR := none, ServiceName := .str "N/A",
       ResourceName := "N/A", ResourceId := .str "",
       ResourceGroupName := .str "N/A", ResourceType := .str "N/A",
       Tags := "No tags" } : CostItem).ServiceName = JSVal.str "N/A" :=
  (c6_absent_column_fallbacks (fun _ => none) ["UsageDate"]
    [[JSVal.str "20240115"]] [] sampleParams "ts" _
    (by decide)).2.2.1 (by decide)

/-- C1 counterexample: for the raw cost `-10.005` the per-row cost computed
by the pipeline is `-10.00` (`Math.round` sends the half toward `+∞`),
whereas rounding half away from zero as claimed would give `-10.01`. -/
theorem c1_counterexample :
    ((processCostData (fun _ => none) ["PreTaxCost"]
        [[JSVal.num (-2001 / 200)]] [] sampleParams
        "ts").detailed_costs.map (fun i => i.Cost_INR)) = [some (-10 : ℚ)] ∧
    specRoundHalfAwayFromZero (-2001 / 200) = -1001 / 100 ∧
    (some (-10 : ℚ) : Option ℚ) ≠ some (-1001 / 100 : ℚ) := by
  refine ⟨?_, ?_, ?_⟩
  · norm_num [processCostData, mkCostItem, buildColumnMap, buildColumnMapFrom,
      objSet, objGet?, rowCost, extractRawCost, jsToNum, jsNumRound2, jsNumAdd,
      sortByLe, insertSorted, itemLe, itemCmp, numCmp, strCmp, createSummary,
      jsTruthy, getCol, extractDate, extractResourceId, tagsStrOf, decodeDate,
      jsValToString, ratToJSString, lastSegment, splitOnCharList, jsSubstring,
      joinSep, orZero, charListLt]
  · norm_num [specRoundHalfAwayFromZero]
  · simp only [ne_eq, Option.some.injEq]
    norm_num

/-- C1 (amended): the per-row cost is the raw value rounded at the cent with
halves toward `+∞` (JavaScript `Math.round`), which agrees with
round-half-away-from-zero for non-negative raw costs; the reported
`total_cost` is exactly the sum of the already-rounded per-row costs
(per-row rounding before summation — the final rounding of the running
total is a no-op in exact arithmetic); in particular raw costs `10.005`,
`10.005` and `5` yield `total_cost = 25.02`. -/
theorem c1_per_row_rounding_total (parse : JSVal → Option Int)
    (cols : List String) (rows : List (List JSVal))
    (resourceTags : List (String × List (String × String))) (p : Params)
    (now : String)
    (H : ∀ r ∈ rows, (rowCost (buildColumnMap cols) r).isSome = true) :
    (processCostData parse cols rows resourceTags p now).summary.total_cost =
      (rows.map (rowCost (buildColumnMap cols))).foldl jsNumAdd (some 0) ∧
    (∀ q : ℚ, 0 ≤ q →
      jsNumRound2 (some q) = some (specRoundHalfAwayFromZero q)) ∧
    (processCostData (fun _ => none) ["PreTaxCost"]
        [[JSVal.num (2001 / 200)], [JSVal.num (2001 / 200)], [JSVal.num 5]] []
        sampleParams "ts").summary.total_cost = some (2502 / 100 : ℚ) := by
  refine ⟨?_, ?_, ?_⟩
  · have hcost :
        (rows.map (mkCostItem (buildColumnMap cols) resourceTags
          p.include_tags)).map (fun i => i.Cost_INR) =
          rows.map (rowCost (buildColumnMap cols)) := by
      rw [List.map_map]; rfl
    have hTfold :
        (rows.map (mkCostItem (buildColumnMap cols) resourceTags
          p.include_tags)).foldl (fun acc i => jsNumAdd acc i.Cost_INR)
            (some 0) =
          (rows.map (rowCost (buildColumnMap cols))).foldl jsNumAdd (some 0) := by
      rw [← hcost]
      simp only [List.foldl_map]
    by_cases hrows : rows = []
    · subst hrows; rfl
    · have hne :
          ¬ (sortByLe itemLe (rows.map (mkCostItem (buildColumnMap cols)
            resourceTags p.include_tags))).length = 0 := by
        rw [(perm_sortByLe itemLe _).length_eq, List.length_map]
        exact fun h => hrows (List.length_eq_zero.mp h)
      have hbranch :
          (processCostData parse cols rows resourceTags p
            now).summary.total_cost =
            jsNumRound2
              ((rows.map (mkCostItem (buildColumnMap cols) resourceTags
                p.include_tags)).foldl (fun acc i => jsNumAdd acc i.Cost_INR)
                  (some 0)) := by
        show (createSummary _ _ _ _).total_cost = _
        unfold createSummary
        rw [if_neg hne]
      rw [hbranch, hTfold]
      have hsome : ∀ x ∈ rows.map (rowCost (buildColumnMap cols)),
          x.isSome = true := by
        intro x hx
        rcases List.mem_map.mp hx with ⟨r, hr, rfl⟩
        exact H r hr
      have hcent : ∀ x ∈ rows.map (rowCost (buildColumnMap cols)),
          isCent x := by
        intro x hx
        rcases List.mem_map.mp hx with ⟨r, hr, rfl⟩
        have hs := H r hr
        simp only [rowCost, jsNumRound2_isSome] at hs
        exact isCent_jsNumRound2 hs
      rw [foldl_jsNumAdd _ 0 hsome]
      rcases isCent_sum _ hcent with ⟨N, hN⟩
      exact jsNumRound2_cent ⟨N, by rw [hN]; norm_num⟩
  · intro q hq
    simp [jsNumRound2, specRoundHalfAwayFromZero, hq]
  · norm_num [processCostData, mkCostItem, buildColumnMap, buildColumnMapFrom,
      objSet, objGet?, rowCost, extractRawCost, jsToNum, jsNumRound2, jsNumAdd,
      sortByLe, insertSorted, itemLe, itemCmp, numCmp, strCmp, createSummary,
      jsTruthy, getCol, extractDate, extractResourceId, tagsStrOf, decodeDate,
      jsValToString, ratToJSString, lastSegment, splitOnCharList, jsSubstring,
      joinSep, orZero, charListLt]

/-- C1 witness: on a one-row response the reported total is the fold of the
per-row rounded costs. -/
theorem c1_total_witness :
    (processCostData (fun _ => none) ["PreTaxCost"] [[JSVal.num 5]] []
        sampleParams "ts").summary.total_cost =
      ([[JSVal.num 5]].map (rowCost (buildColumnMap ["PreTaxCost"]))).foldl
        jsNumAdd (some 0) :=
  (c1_per_row_rounding_total (fun _ => none) ["PreTaxCost"] [[JSVal.num 5]] []
    sampleParams "ts" (by decide)).1

/-- C4: after processing, `detailed_costs` is pairwise ordered by date string
ascending under plain lexicographic comparison (not chronologically), and by
cost descending between records sharing a date string (stated for responses
whose rows all carry numeric costs). -/
theorem c4_sort_order (parse : JSVal → Option Int) (cols : List String)
    (rows : List (List JSVal))
    (resourceTags : List (String × List (String × String))) (p : Params)
    (now : String)
    (H : ∀ r ∈ rows, (rowCost (buildColumnMap cols) r).isSome = true) :
    (processCostData parse cols rows resourceTags p
      now).detailed_costs.Pairwise sortedRel := by
  have hP : ∀ i ∈ rows.map (mkCostItem (buildColumnMap cols) resourceTags
      p.include_tags), i.Cost_INR.isSome = true := by
    intro i hi
    rcases List.mem_map.mp hi with ⟨r, hr, rfl⟩
    exact H r hr
  have htot : ∀ a b : CostItem, a.Cost_INR.isSome = true →
      b.Cost_INR.isSome = true → itemLe a b = true ∨ itemLe b a = true := by
    intro a b ha hb
    rcases sortedRel_total ha hb with h | h
    · exact Or.inl ((itemLe_true_iff a b ha hb).mpr h)
    · exact Or.inr ((itemLe_true_iff b a hb ha).mpr h)
  have htrans : ∀ a b c : CostItem, a.Cost_INR.isSome = true →
      b.Cost_INR.isSome = true → c.Cost_INR.isSome = true →
      itemLe a b = true → itemLe b c = true → itemLe a c = true := by
    intro a b c ha hb hc hab hbc
    exact (itemLe_true_iff a c ha hc).mpr
      (sortedRel_trans ((itemLe_true_iff a b ha hb).mp hab)
        ((itemLe_true_iff b c hb hc).mp hbc))
  have hpw := pairwise_sortByLe itemLe (fun i => i.Cost_INR.isSome = true)
    htot htrans _ hP
  have hPs : ∀ x ∈ sortByLe itemLe (rows.map (mkCostItem (buildColumnMap cols)
      resourceTags p.include_tags)), x.Cost_INR.isSome = true :=
    fun x hx => hP x ((perm_sortByLe itemLe _).mem_iff.mp hx)
  exact List.Pairwise.imp_of_mem
    (fun ha hb hle => (itemLe_true_iff _ _ (hPs _ ha) (hPs _ hb)).mp hle) hpw

/-- C4 witness: a concrete two-row response is pairwise sorted by the claimed
order. -/
theorem c4_sort_witness :
    (processCostData (fun _ => none) ["PreTaxCost"]
      [[JSVal.num 5], [JSVal.num 7]] [] sampleParams
      "ts").detailed_costs.Pairwise sortedRel :=
  c4_sort_order (fun _ => none) ["PreTaxCost"] [[JSVal.num 5], [JSVal.num 7]]
    [] sampleParams "ts" (by decide)

/-- C10: in exact arithmetic the costs of `daily_breakdown` sum to exactly
the reported `total_cost` — every record's rounded cost lands in exactly one
date bucket (including `"Unknown"`), and since every bucket sum is a
multiple of a cent, the per-bucket and final roundings change nothing
(stated for responses whose rows all carry numeric costs). -/
theorem c10_daily_breakdown_total (parse : JSVal → Option Int)
    (cols : List String) (rows : List (List JSVal))
    (resourceTags : List (String × List (String × String))) (p : Params)
    (now : String)
    (H : ∀ r ∈ rows, (rowCost (buildColumnMap cols) r).isSome = true) :
    (((processCostData parse cols rows resourceTags p
          now).summary.daily_breakdown.map (fun e => e.2)).foldl jsNumAdd
        (some 0)) =
      (processCostData parse cols rows resourceTags p
        now).summary.total_cost := by
  by_cases hrows : rows = []
  · subst hrows; rfl
  · have hcentItems : ∀ i ∈ rows.map (mkCostItem (buildColumnMap cols)
        resourceTags p.include_tags), isCent i.Cost_INR := by
      intro i hi
      rcases List.mem_map.mp hi with ⟨r, hr, rfl⟩
      have hs := H r hr
      have hs2 : (extractRawCost (buildColumnMap cols) r).isSome = true := by
        simpa only [rowCost, jsNumRound2_isSome] using hs
      exact isCent_jsNumRound2 hs2
    have hcentSorted : ∀ i ∈ sortByLe itemLe (rows.map
        (mkCostItem (buildColumnMap cols) resourceTags p.include_tags)),
        isCent i.Cost_INR :=
      fun i hi => hcentItems i ((perm_sortByLe itemLe _).mem_iff.mp hi)
    have hne : ¬ (sortByLe itemLe (rows.map (mkCostItem (buildColumnMap cols)
        resourceTags p.include_tags))).length = 0 := by
      rw [(perm_sortByLe itemLe _).length_eq, List.length_map]
      exact fun h => hrows (List.length_eq_zero.mp h)
    rcases dailyCostsOf_foldl (sortByLe itemLe (rows.map
        (mkCostItem (buildColumnMap cols) resourceTags p.include_tags))) []
        (by intro e he; cases he) hcentSorted with ⟨hsum, hcentm⟩
    have hcentDcs : ∀ e ∈ dailyCostsOf (sortByLe itemLe (rows.map
        (mkCostItem (buildColumnMap cols) resourceTags p.include_tags))),
        isCent e.2 := hcentm
    have hbd : (processCostData parse cols rows resourceTags p
        now).summary.daily_breakdown =
        (sortByLe entryKeyLe (dailyCostsOf (sortByLe itemLe (rows.map
          (mkCostItem (buildColumnMap cols) resourceTags
            p.include_tags))))).map roundEntry := by
      show (createSummary _ _ _ _).daily_breakdown = _
      unfold createSummary
      rw [if_neg hne]
    have htc : (processCostData parse cols rows resourceTags p
        now).summary.total_cost =
        jsNumRound2 ((rows.map (mkCostItem (buildColumnMap cols) resourceTags
          p.include_tags)).foldl (fun acc i => jsNumAdd acc i.Cost_INR)
            (some 0)) := by
      show (createSummary _ _ _ _).total_cost = _
      unfold createSummary
      rw [if_neg hne]
    have hcentSortedDcs := cent_sortByLe entryKeyLe _ hcentDcs
    have hmapid : (sortByLe entryKeyLe (dailyCostsOf (sortByLe itemLe
        (rows.map (mkCostItem (buildColumnMap cols) resourceTags
          p.include_tags))))).map roundEntry =
        sortByLe entryKeyLe (dailyCostsOf (sortByLe itemLe (rows.map
          (mkCostItem (buildColumnMap cols) resourceTags p.include_tags)))) :=
      map_roundEntry_cent _ hcentSortedDcs
    rw [hbd, hmapid, htc]
    have hsome2 : ∀ x ∈ (sortByLe entryKeyLe (dailyCostsOf (sortByLe itemLe
        (rows.map (mkCostItem (buildColumnMap cols) resourceTags
          p.include_tags))))).map (fun e => e.2), x.isSome = true := by
      intro x hx
      rcases List.mem_map.mp hx with ⟨e, he, rfl⟩
      exact isCent_isSome (hcentSortedDcs e he)
    rw [foldl_jsNumAdd _ 0 hsome2]
    have hsomeItems : ∀ x ∈ (rows.map (mkCostItem (buildColumnMap cols)
        resourceTags p.include_tags)).map (fun i => i.Cost_INR),
        x.isSome = true := by
      intro x hx
      rcases List.mem_map.mp hx with ⟨i, hi, rfl⟩
      exact isCent_isSome (hcentItems i hi)
    have hfoldT : (rows.map (mkCostItem (buildColumnMap cols) resourceTags
        p.include_tags)).foldl (fun acc i => jsNumAdd acc i.Cost_INR)
          (some 0) =
        some (0 + (((rows.map (mkCostItem (buildColumnMap cols) resourceTags
          p.include_tags)).map (fun i => i.Cost_INR)).map
            (fun x => x.getD 0)).sum) := by
      rw [← foldl_jsNumAdd _ 0 hsomeItems]
      simp only [List.foldl_map]
    rw [hfoldT]
    have hcentItemCosts : ∀ x ∈ (rows.map (mkCostItem (buildColumnMap cols)
        resourceTags p.include_tags)).map (fun i => i.Cost_INR), isCent x := by
      intro x hx
      rcases List.mem_map.mp hx with ⟨i, hi, rfl⟩
      exact hcentItems i hi
    rcases isCent_sum _ hcentItemCosts with ⟨N, hN⟩
    rw [jsNumRound2_cent ⟨N, by rw [hN]; norm_num⟩]
    have hvals : (((sortByLe entryKeyLe (dailyCostsOf (sortByLe itemLe
        (rows.map (mkCostItem (buildColumnMap cols) resourceTags
          p.include_tags))))).map (fun e => e.2)).map
            (fun x => x.getD 0)).sum =
        (((rows.map (mkCostItem (buildColumnMap cols) resourceTags
          p.include_tags)).map (fun i => i.Cost_INR)).map
            (fun x => x.getD 0)).sum := by
      have h1 : (((sortByLe entryKeyLe (dailyCostsOf (sortByLe itemLe
          (rows.map (mkCostItem (buildColumnMap cols) resourceTags
            p.include_tags))))).map (fun e => e.2)).map
              (fun x => x.getD 0)).sum =
          valsSum (sortByLe entryKeyLe (dailyCostsOf (sortByLe itemLe
            (rows.map (mkCostItem (buildColumnMap cols) resourceTags
              p.include_tags))))) := by
        unfold valsSum
        rw [List.map_map]
        rfl
      have h2 : valsSum (dailyCostsOf (sortByLe itemLe (rows.map
          (mkCostItem (buildColumnMap cols) resourceTags p.include_tags)))) =
          ((sortByLe itemLe (rows.map (mkCostItem (buildColumnMap cols)
            resourceTags p.include_tags))).map
              (fun i => i.Cost_INR.getD 0)).sum := by
        have := hsum
        unfold valsSum at this
        simpa using this
      have h3 : ((sortByLe itemLe (rows.map (mkCostItem (buildColumnMap cols)
          resourceTags p.include_tags))).map
            (fun i => i.Cost_INR.getD 0)).sum =
          ((rows.map (mkCostItem (buildColumnMap cols) resourceTags
            p.include_tags)).map (fun i => i.Cost_INR.getD 0)).sum :=
        List.Perm.sum_eq ((perm_sortByLe itemLe _).map _)
      rw [h1, valsSum_sortByLe, h2, h3]
      simp only [List.map_map]
      rfl
    rw [hvals]

/-- C10 witness: on a concrete two-row response the breakdown costs sum to
the reported total. -/
theorem c10_daily_breakdown_witness :
    (((processCostData (fun _ => none) ["PreTaxCost"]
          [[JSVal.num 5], [JSVal.num 7]] [] sampleParams
          "ts").summary.daily_breakdown.map (fun e => e.2)).foldl jsNumAdd
        (some 0)) =
      (processCostData (fun _ => none) ["PreTaxCost"]
        [[JSVal.num 5], [JSVal.num 7]] [] sampleParams
        "ts").summary.total_cost :=
  c10_daily_breakdown_total (fun _ => none) ["PreTaxCost"]
    [[JSVal.num 5], [JSVal.num 7]] [] sampleParams "ts" (by decide)

/-- C5 witness: a concrete record with tag-map entry
`{Env: PRD, Team: Eng}` receives the joined `K=V` string. -/
theorem c5_tag_join_witness :
    (mkCostItem (buildColumnMap ["ResourceId"])
        [("/r1", [("Env", "PRD"), ("Team", "Eng")])] true
        [JSVal.str "/r1"]).Tags =
      joinSep "; " ([("Env", "PRD"), ("Team", "Eng")].map
        (fun kv => kv.1 ++ "=" ++ kv.2)) :=
  (c5_tag_join (buildColumnMap ["ResourceId"])
    [("/r1", [("Env", "PRD"), ("Team", "Eng")])] [JSVal.str "/r1"]).2.2.2.1
    [("Env", "PRD"), ("Team", "Eng")] (by decide) (by decide) (by decide)

/-- C7 witness: a truthy body `start_date` wins over the query string. -/
theorem c7_body_precedence_witness :
    (getRequestParameters [("start_date", JSVal.str "2024-03-01")]
        [("start_date", "2024-02-02")] .undefined).start_date =
      (objGet? [("start_date", JSVal.str "2024-03-01")] "start_date").getD
        .undefined :=
  (c7_body_precedence [("start_date", .str "2024-03-01")]
    [("start_date", "2024-02-02")] .undefined).1 (by decide)
